import Mathlib

/-!
# Verification of the StarGym front-end registration/session core

Shallow embedding of the registration form, the admin login handler and the
session bootstrap of the gym front-end, together with proofs of the spec's
claims about them.  Strings are modelled as `List Char`; dates as calendar
triples; network effects as explicit outcome parameters and effect counters.
-/

namespace Gym

/-! ## Date calculator

`RegistrationForm.tsx` computes membership windows with `addMonths` from
date-fns and truncates to the calendar day.  `Date` is a calendar date;
`addMonths` follows date-fns semantics: add to the month index, carry into
the year, and clamp the day to the last day of the target month. -/

structure Date where
  year : Int
  month : Nat
  day : Nat
deriving DecidableEq, Repr

def isLeap (y : Int) : Bool :=
  y % 4 == 0 && (y % 100 != 0 || y % 400 == 0)

def daysInMonth (y : Int) (m : Nat) : Nat :=
  if m = 2 then (if isLeap y then 29 else 28)
  else if m = 4 ∨ m = 6 ∨ m = 9 ∨ m = 11 then 30
  else 31

def ValidDate (d : Date) : Prop :=
  1 ≤ d.month ∧ d.month ≤ 12 ∧ 1 ≤ d.day ∧ d.day ≤ daysInMonth d.year d.month

instance (d : Date) : Decidable (ValidDate d) := by
  unfold ValidDate; infer_instance

/-- date-fns `addMonths`: move `n` months forward, clamping the day-of-month
to the last valid day of the target month. -/
def addMonths (d : Date) (n : Nat) : Date :=
  let totalM : Nat := (d.month - 1) + n
  let y : Int := d.year + (totalM / 12 : Nat)
  let m : Nat := totalM % 12 + 1
  { year := y, month := m, day := min d.day (daysInMonth y m) }

/-- Source `handlePlanSelect` sets `startDate` to today and `endDate` to
`addMonths(today, plan.months)`, both truncated to the calendar day. -/
def computeWindow (ref : Date) (months : Nat) : Date × Date :=
  (ref, addMonths ref months)

theorem daysInMonth_pos (y : Int) (m : Nat) : 1 ≤ daysInMonth y m := by
  unfold daysInMonth
  split
  · split <;> omega
  · split <;> omega

theorem addMonths_valid (d : Date) (n : Nat) (h : ValidDate d) :
    ValidDate (addMonths d n) := by
  obtain ⟨h1, h2, h3, h4⟩ := h
  refine ⟨?_, ?_, ?_, ?_⟩
  · simp only [addMonths]
    omega
  · have := Nat.mod_lt ((d.month - 1) + n) (by omega : 0 < 12)
    simp only [addMonths]
    omega
  · simp only [addMonths]
    have := daysInMonth_pos (d.year + (((d.month - 1) + n) / 12 : Nat))
      (((d.month - 1) + n) % 12 + 1)
    omega
  · simp only [addMonths]
    exact Nat.min_le_right _ _

/-! ## Validators

`handleSubmit` tests `emailRegex = /^[^\s@]+@[^\s@]+\.[^\s@]+$/` and
`phoneRegex = /^[0-9]{10}$/` before building the request.  Strings are
`List Char`; the matchers below implement the two regexes directly. -/

/-- A character allowed by the class `[^\s@]`: not whitespace and not `@`. -/
def goodChar (c : Char) : Bool :=
  !c.isWhitespace && c != '@'

/-- Class `[0-9]`. -/
def isDigitChar (c : Char) : Bool :=
  '0' ≤ c && c ≤ '9'

/-- Consume exactly `n` characters matching `[0-9]`, returning the rest. -/
def matchDigits : Nat → List Char → Option (List Char)
  | 0, rest => some rest
  | _ + 1, [] => none
  | n + 1, c :: rest => if isDigitChar c then matchDigits n rest else none

/-- Matcher for `phoneRegex.test`: the whole string is `[0-9]{10}`. -/
def phoneTest (cs : List Char) : Bool :=
  matchDigits 10 cs == some []

/-- Whether some `.` occurs at a position of `cs` that is neither first nor
last; used for the `[^\s@]+\.[^\s@]+` suffix of the email regex. -/
def hasInternalDot (cs : List Char) : Bool :=
  (List.range cs.length).any fun j =>
    decide (1 ≤ j) && decide (j + 2 ≤ cs.length) && (cs.getD j ' ' == '.')

/-- Matcher for `emailRegex.test`: split at the first `@` (the regex admits exactly one,
since `[^\s@]` excludes it); the part before must be a nonempty run of
`[^\s@]`, the part after must be a nonempty run of `[^\s@]` containing a `.`
that is neither its first nor its last character. -/
def emailTest (cs : List Char) : Bool :=
  let a := cs.takeWhile (fun c => c != '@')
  let rest := cs.dropWhile (fun c => c != '@')
  match rest with
  | [] => false
  | _ :: rest2 =>
    !a.isEmpty && a.all goodChar && !rest2.isEmpty && rest2.all goodChar &&
      hasInternalDot rest2

/-- The language the spec describes for emails: `A ++ "@" ++ B ++ "." ++ C`
with `A`, `B`, `C` nonempty strings of non-whitespace, non-`@` characters. -/
def EmailShape (cs : List Char) : Prop :=
  ∃ a b c : List Char, a ≠ [] ∧ b ≠ [] ∧ c ≠ [] ∧
    (∀ x ∈ a, goodChar x = true) ∧ (∀ x ∈ b, goodChar x = true) ∧
    (∀ x ∈ c, goodChar x = true) ∧
    cs = a ++ '@' :: (b ++ '.' :: c)

/-- Whether the first list occurs at the very start of the second. -/
def leadsWith : List Char → List Char → Bool
  | [], _ => true
  | _ :: _, [] => false
  | a :: as, b :: bs => a == b && leadsWith as bs

/-- JS `String.prototype.includes`: `needle` occurs contiguously in `hay`. -/
def containsSub (hay needle : List Char) : Bool :=
  (List.range (hay.length + 1)).any fun i => leadsWith needle (hay.drop i)

/-! ## Plan catalog and registration draft -/

inductive PlanId
  | m1 | m2 | m3 | m6 | yearly
deriving DecidableEq, Repr

/-- The string the form state stores for each plan id. -/
def planIdString : PlanId → List Char
  | .m1 => "1month".data
  | .m2 => "2month".data
  | .m3 => "3month".data
  | .m6 => "6month".data
  | .yearly => "yearly".data

structure PlanOption where
  id : PlanId
  name : List Char
  price : Nat
  months : Nat
deriving DecidableEq, Repr

/-- The `plans` array of `RegistrationForm.tsx`. -/
def plans : List PlanOption :=
  [⟨.m1, "1 Month".data, 1500, 1⟩,
   ⟨.m2, "2 Months".data, 2500, 2⟩,
   ⟨.m3, "3 Months".data, 3500, 3⟩,
   ⟨.m6, "6 Months".data, 5000, 6⟩,
   ⟨.yearly, "1 Year".data, 8000, 12⟩]

inductive PayMethod
  | cash | online
deriving DecidableEq, Repr

def payMethodString : PayMethod → List Char
  | .cash => "cash".data
  | .online => "online".data

/-- A selected file: only its name and byte size matter to this core. -/
structure FileBlob where
  fname : List Char
  size : Nat
deriving DecidableEq, Repr

/-- The `formData` state of `RegistrationForm.tsx` (the registration draft).
Field order mirrors the object literal: name, email, phone, dob, photo,
plan, startDate, endDate, paymentMethod. -/
structure Draft where
  name : List Char
  email : List Char
  phone : List Char
  dob : List Char
  photo : Option FileBlob
  plan : PlanId
  startDate : List Char
  endDate : List Char
  paymentMethod : PayMethod
deriving DecidableEq, Repr

/-! ## Multipart body

`handleSubmit` iterates `Object.keys(formData)` in insertion order and
appends every field to a `FormData`: the photo as a binary part when it is
a `File`, every other value — including a `null` photo, which JS
stringifies to `"null"` — via `String(...)` as a text part. -/

inductive Part
  | text (pname value : List Char)
  | file (pname : List Char) (f : FileBlob)
deriving DecidableEq, Repr

def buildMultipart (d : Draft) : List Part :=
  [Part.text "name".data d.name,
   Part.text "email".data d.email,
   Part.text "phone".data d.phone,
   Part.text "dob".data d.dob,
   (match d.photo with
    | some f => Part.file "photo".data f
    | none => Part.text "photo".data "null".data),
   Part.text "plan".data (planIdString d.plan),
   Part.text "startDate".data d.startDate,
   Part.text "endDate".data d.endDate,
   Part.text "paymentMethod".data (payMethodString d.paymentMethod)]

/-- Names of the text parts of a multipart body, in order. -/
def textPartNames (ps : List Part) : List (List Char) :=
  ps.filterMap fun p =>
    match p with
    | .text n _ => some n
    | .file _ _ => none

/-- The binary parts of a multipart body, in order. -/
def binaryParts (ps : List Part) : List (List Char × FileBlob) :=
  ps.filterMap fun p =>
    match p with
    | .text _ _ => none
    | .file n f => some (n, f)

/-- Value of the text part named `n`, if any. -/
def textPartValue (ps : List Part) (n : List Char) : Option (List Char) :=
  ps.findSome? fun p =>
    match p with
    | .text m v => if m = n then some v else none
    | .file _ _ => none

/-! ## Server-error mapping and the submit pipeline

On a non-2xx response `handleSubmit` reads the JSON body `{message}` and
throws: for status 400 a duplicate-email message when `message.includes
('email')`, else a duplicate-phone message when `message.includes('phone')`,
otherwise `message || 'Registration failed. Please try again.'`.  The
`catch` block then shows the thrown message in a toast only when it
mentions `email` or `phone`, and a fixed generic toast otherwise. -/

def dupEmailMsg : List Char :=
  "This email is already registered. Please use a different email or try logging in.".data

def dupPhoneMsg : List Char :=
  "This phone number is already registered. Please use a different phone number.".data

def regFailedDefaultMsg : List Char :=
  "Registration failed. Please try again.".data

def genericToastMsg : List Char :=
  "Registration failed. Please check your information and try again.".data

def invalidEmailMsg : List Char :=
  "Please enter a valid email address".data

def invalidPhoneMsg : List Char :=
  "Please enter a valid 10-digit phone number".data

/-- The message of the `Error` thrown for a non-2xx response with status
`status` and body message `msg`. -/
def thrownMessage (status : Nat) (msg : List Char) : List Char :=
  if status = 400 ∧ containsSub msg "email".data then dupEmailMsg
  else if status = 400 ∧ containsSub msg "phone".data then dupPhoneMsg
  else if msg = [] then regFailedDefaultMsg else msg

/-- The toast the `catch` block shows for a thrown `Error` message. -/
def toastShown (thrown : List Char) : List Char :=
  if containsSub thrown "email".data then thrown
  else if containsSub thrown "phone".data then thrown
  else genericToastMsg

/-- End-to-end user-facing text for a non-2xx response. -/
def userFacing (status : Nat) (msg : List Char) : List Char :=
  toastShown (thrownMessage status msg)

/-- Outcome of the single `fetch` of `handleSubmit`, as seen by the client. -/
inductive FetchResult
  | ok
  | httpError (status : Nat) (msg : List Char)
  | netError
deriving DecidableEq, Repr

/-- What a run of `handleSubmit` produced. -/
inductive SubmitOutcome
  | navigatedThankYou
  | errorToast (msg : List Char)
deriving DecidableEq, Repr

structure SubmitResult where
  networkCalls : Nat
  sentBody : Option (List Part)
  outcome : SubmitOutcome
deriving DecidableEq, Repr

/-- Source `handleSubmit`: validate email then phone (each failure throws, reaching
the `catch` toast without touching the network), otherwise build the
multipart body, perform the single `fetch`, and map its outcome.  The
message "Failed to fetch" of a transport error mentions neither `email` nor
`phone`, so the `catch` block degrades it to the generic toast. -/
def handleSubmit (d : Draft) (fetch : FetchResult) : SubmitResult :=
  if emailTest d.email = false then
    ⟨0, none, .errorToast (toastShown invalidEmailMsg)⟩
  else if phoneTest d.phone = false then
    ⟨0, none, .errorToast (toastShown invalidPhoneMsg)⟩
  else
    match fetch with
    | .ok => ⟨1, some (buildMultipart d), .navigatedThankYou⟩
    | .httpError status msg =>
      ⟨1, some (buildMultipart d), .errorToast (userFacing status msg)⟩
    | .netError => ⟨1, some (buildMultipart d), .errorToast genericToastMsg⟩

/-! ## Photo selection

`handlePhotoChange` checks `file.size > 1 * 1024 * 1024` before anything
else: an oversized file only raises a toast and returns, leaving the draft
and the preview untouched and starting no `FileReader`; otherwise the file
is stored in the draft and a `readAsDataURL` read is started whose
`onloadend` sets the preview. -/

def oversizeMsg : List Char :=
  "Photo size should be less than 1MB".data

def photoSizeLimit : Nat := 1 * 1024 * 1024

/-- Component state touched by photo selection. -/
structure FormState where
  draft : Draft
  photoPreview : Option (List Char)
deriving DecidableEq, Repr

/-- Local effects of a photo selection. -/
structure PhotoEffects where
  toasts : List (List Char)
  fileReads : Nat
  networkCalls : Nat
deriving DecidableEq, Repr

/-- Placeholder for the data URL `readAsDataURL` produces for a file. -/
def dataUrlOf (f : FileBlob) : List Char :=
  "data:".data ++ f.fname

def handlePhotoChange (st : FormState) (file : Option FileBlob) :
    FormState × PhotoEffects :=
  match file with
  | none => (st, ⟨[], 0, 0⟩)
  | some f =>
    if f.size > photoSizeLimit then
      (st, ⟨[oversizeMsg], 0, 0⟩)
    else
      ({ draft := { st.draft with photo := some f },
         photoPreview := some (dataUrlOf f) },
       ⟨[], 1, 0⟩)

/-! ## Session manager

`App.tsx` holds `isAdminLoggedIn` (`useState(false)`) next to the token in
`localStorage`.  The bootstrap effect calls `/api/auth/verify` with a plain
`fetch` when a token is stored; the `/admin` route renders `AdminPanel`
exactly when `isAdminLoggedIn`, and `AdminLogin` (whose `onLogin` sets the
flag) otherwise; the logout button clears both. -/

/-- How a network request is configured, as far as timeouts matter. -/
structure RequestSpec where
  url : List Char
  method : List Char
  hasAuthHeader : Bool
  timeoutMs : Option Nat
deriving DecidableEq, Repr

/-- The verify request of App's bootstrap effect: a bearer-token `fetch`
with `credentials: 'include'` and no `AbortController`, signal or timeout
of any kind. -/
def bootstrapVerifyRequest : RequestSpec :=
  ⟨"/api/auth/verify".data, "GET".data, true, none⟩

/-- The login request of `AdminLogin.tsx`: an `AbortController` aborts it
after 10000 ms. -/
def adminLoginRequest : RequestSpec :=
  ⟨"/api/auth/login".data, "POST".data, false, some 10000⟩

/-- Outcome of the bootstrap verification `fetch`. -/
inductive VerifyOutcome
  | ok
  | httpError (status : Nat)
  | netError
deriving DecidableEq, Repr

structure BootResult where
  isAdminLoggedIn : Bool
  storedToken : Option (List Char)
  verifyCalls : Nat
deriving DecidableEq, Repr

/-- The bootstrap effect: with no stored token nothing happens; with one,
a single verify call is made, success sets the flag and keeps the token,
and every failure (non-2xx or rejected promise) clears the token and leaves
the flag false.  There is no retry. -/
def bootstrapStep : Option (List Char) → VerifyOutcome → BootResult
  | none, _ => ⟨false, none, 0⟩
  | some t, .ok => ⟨true, some t, 1⟩
  | some _, .httpError _ => ⟨false, none, 1⟩
  | some _, .netError => ⟨false, none, 1⟩

/-- Outcome of the login `fetch` of `AdminLogin.tsx`. -/
inductive LoginOutcome
  | ok (token : Option (List Char))
  | httpError (status : Nat) (msg : List Char)
  | netError
  | aborted
deriving DecidableEq, Repr

structure LoginResult where
  storedToken : Option (List Char)
  isAdminLoggedIn : Bool
  extraNetworkCalls : Nat
  errorShown : Option (List Char)
deriving DecidableEq, Repr

/-- Source `AdminLogin.handleSubmit` after the login response, starting from the
logged-out state in which the form renders: on 2xx the token (when the body
carries one) is persisted and `onLogin` flips the flag at once, with no
further network call; otherwise an error is shown and the flag stays
false. -/
def adminLoginHandle (prev : Option (List Char)) : LoginOutcome → LoginResult
  | .ok (some t) => ⟨some t, true, 0, none⟩
  | .ok none => ⟨prev, true, 0, none⟩
  | .httpError _ msg =>
    ⟨prev, false, 0,
     some (if msg = [] then "Invalid email or password".data else msg)⟩
  | .netError => ⟨prev, false, 0, some "Something went wrong. Please try again.".data⟩
  | .aborted => ⟨prev, false, 0, some "Request timed out. Please try again.".data⟩

/-- The session-relevant client state: the React flag, the stored token,
and which of the two credential fetches is currently in flight.  Rendering
gates only the *initiation* of a login request; its promise can resolve in
any later state, so in-flight requests are part of the state. -/
structure AppState where
  isAdminLoggedIn : Bool
  storedToken : Option (List Char)
  bootPending : Bool
  loginPending : Bool
deriving DecidableEq, Repr

/-- Initial state: `useState(false)`, whatever token storage held at mount,
and the bootstrap verify already in flight exactly when a token was stored
(the mount effect guards `if (token)`). -/
def initState (t0 : Option (List Char)) : AppState :=
  ⟨false, t0, t0.isSome, false⟩

/-- The events that touch the session state: the submit of the login form,
and one event per resolution callback in the source. -/
inductive Ev
  | loginStart
  | bootstrapOk
  | bootstrapHttpError (status : Nat)
  | bootstrapNetError
  | loginOk (token : Option (List Char))
  | loginHttpError
  | loginNetError
  | logout
deriving DecidableEq, Repr

/-- State transition of each event, from the source handlers.  A resolved
login failure only runs `setError`/`setIsLoading` local to the (possibly
unmounted) `AdminLogin` component: it never touches the App flag or the
stored token. -/
def step (s : AppState) : Ev → AppState
  | .loginStart => { s with loginPending := true }
  | .bootstrapOk => { s with isAdminLoggedIn := true, bootPending := false }
  | .bootstrapHttpError _ =>
    { s with isAdminLoggedIn := false, storedToken := none, bootPending := false }
  | .bootstrapNetError =>
    { s with isAdminLoggedIn := false, storedToken := none, bootPending := false }
  | .loginOk t =>
    { s with isAdminLoggedIn := true,
             storedToken := (match t with | some tk => some tk | none => s.storedToken),
             loginPending := false }
  | .loginHttpError => { s with loginPending := false }
  | .loginNetError => { s with loginPending := false }
  | .logout => { s with isAdminLoggedIn := false, storedToken := none }

/-- When each event can fire: a login submit needs the form rendered (flag
false) and its button enabled (no login call outstanding); each resolution
event needs its own call to be in flight — and nothing else, since a
promise resolves regardless of what rendered in the meantime; logout needs
the logout button, rendered only while the flag is true. -/
def enabled (s : AppState) : Ev → Bool
  | .loginStart => !s.isAdminLoggedIn && !s.loginPending
  | .bootstrapOk => s.bootPending
  | .bootstrapHttpError _ => s.bootPending
  | .bootstrapNetError => s.bootPending
  | .loginOk _ => s.loginPending
  | .loginHttpError => s.loginPending
  | .loginNetError => s.loginPending
  | .logout => s.isAdminLoggedIn

def runFrom (s : AppState) (evs : List Ev) : AppState :=
  evs.foldl step s

/-- A trace is valid when every event is enabled in the state it fires in. -/
def validFrom : AppState → List Ev → Bool
  | _, [] => true
  | s, e :: rest => enabled s e && validFrom (step s e) rest

/-- What the `/admin` route renders. -/
inductive AdminRoute
  | panel
  | loginForm
deriving DecidableEq, Repr

/-- The route element: `isAdminLoggedIn ? <AdminPanel/> : <AdminLogin/>`. -/
def renderAdminRoute (s : AppState) : AdminRoute :=
  if s.isAdminLoggedIn then .panel else .loginForm

/-- Whether an event reports the outcome of a completed
credential/verification call: `some true` for a success, `some false` for
a failure, `none` for events that are no completed call (submit, logout). -/
def credOutcome : Ev → Option Bool
  | .loginStart => none
  | .bootstrapOk => some true
  | .bootstrapHttpError _ => some false
  | .bootstrapNetError => some false
  | .loginOk _ => some true
  | .loginHttpError => some false
  | .loginNetError => some false
  | .logout => none

/-- Outcome of the most recent completed credential/verification call in a
trace. -/
def lastCredOutcome (evs : List Ev) : Option Bool :=
  (evs.filterMap credOutcome).getLast?

/-- Like `credOutcome`, but restricted to the completed calls whose
handlers write the session state: both bootstrap outcomes and a successful
login.  A failed login resolution changes nothing in the session state, so
it does not count here. -/
def stateCredOutcome : Ev → Option Bool
  | .bootstrapOk => some true
  | .bootstrapHttpError _ => some false
  | .bootstrapNetError => some false
  | .loginOk _ => some true
  | _ => none

/-- Outcome of the most recent state-changing credential call in a trace. -/
def lastStateCredOutcome (evs : List Ev) : Option Bool :=
  (evs.filterMap stateCredOutcome).getLast?

/-! ## Concrete sample data used by witnesses and counterexamples -/

def file1 : FileBlob := ⟨"me.png".data, 4096⟩

def bigFile : FileBlob := ⟨"big.png".data, 2097152⟩

def edgeFile : FileBlob := ⟨"edge.png".data, 1048576⟩

def sampleDraft : Draft :=
  ⟨"Alice".data, "a@b.co".data, "1234567890".data, "2000-01-01".data,
   some file1, .m1, "2024-01-31".data, "2024-02-29".data, .online⟩

def draftNoPhoto : Draft :=
  { sampleDraft with photo := none }

def draftBadPhone : Draft :=
  { sampleDraft with phone := "12345".data }

def draftBadEmail : Draft :=
  { sampleDraft with email := "nobody".data }

def st0 : FormState := ⟨draftNoPhoto, none⟩

/-! ## Supporting lemmas -/

theorem matchDigits_spec (n : Nat) (cs : List Char) :
    matchDigits n cs = some [] ↔
      (cs.length = n ∧ ∀ c ∈ cs, isDigitChar c = true) := by
  induction n generalizing cs with
  | zero =>
    cases cs with
    | nil => simp [matchDigits]
    | cons c rest => simp [matchDigits]
  | succ n ih =>
    cases cs with
    | nil => simp [matchDigits]
    | cons c rest =>
      by_cases hc : isDigitChar c = true
      · simp only [matchDigits, hc, if_pos, ih, List.length_cons, List.mem_cons]
        constructor
        · rintro ⟨hlen, hall⟩
          refine ⟨by omega, ?_⟩
          rintro x (rfl | hx)
          · exact hc
          · exact hall x hx
        · rintro ⟨hlen, hall⟩
          exact ⟨by omega, fun x hx => hall x (Or.inr hx)⟩
      · have hm : matchDigits (n + 1) (c :: rest) = none := by
          simp [matchDigits, hc]
        rw [hm]
        constructor
        · intro h; exact Option.noConfusion h
        · rintro ⟨_, hall⟩
          exact absurd (hall c (List.mem_cons_self c rest)) hc

theorem validFrom_append (l1 l2 : List Ev) (s : AppState) :
    validFrom s (l1 ++ l2) = (validFrom s l1 && validFrom (runFrom s l1) l2) := by
  induction l1 generalizing s with
  | nil => simp [validFrom, runFrom]
  | cons e l1 ih =>
    simp only [List.cons_append, validFrom, List.append_eq, ih, runFrom,
      List.foldl_cons, Bool.and_assoc]

theorem runFrom_append (l1 l2 : List Ev) (s : AppState) :
    runFrom s (l1 ++ l2) = runFrom (runFrom s l1) l2 := by
  simp [runFrom, List.foldl_append]

/-! ## Claim C2 — membership window computation -/

/-- C2: for every valid reference date and plan duration the window starts
at the reference date itself and ends at the calendar-correct (date-fns)
month addition, which is again a valid calendar date; in particular
2024-01-31 plus one month ends on 2024-02-29, the last day of that
February. -/
theorem computeWindow_correct (ref : Date) (n : Nat) (h : ValidDate ref) :
    (computeWindow ref n).1 = ref ∧
    (computeWindow ref n).2 = addMonths ref n ∧
    ValidDate (computeWindow ref n).2 ∧
    (computeWindow ⟨2024, 1, 31⟩ 1).2 = ⟨2024, 2, 29⟩ ∧
    daysInMonth 2024 2 = 29 :=
  ⟨rfl, rfl, addMonths_valid ref n h, by decide, by decide⟩

/-- Witness for C2 at the spec's own example. -/
theorem computeWindow_correct_witness :
    ValidDate ⟨2024, 1, 31⟩ ∧ (computeWindow ⟨2024, 1, 31⟩ 1).2 = ⟨2024, 2, 29⟩ :=
  ⟨by decide, (computeWindow_correct ⟨2024, 1, 31⟩ 1 (by decide)).2.2.2.1⟩

/-! ## Claim C3 — bootstrap failure handling and (absent) timeout -/

/-- C3 counterexample: the bootstrap verification `fetch` of `App.tsx` is
configured with no timeout at all (unlike the login call of
`AdminLogin.tsx`, which aborts after 10 s), so the claim that it applies a
bounded ~10 s timeout is false of the code. -/
theorem bootstrap_no_timeout_counterexample :
    bootstrapVerifyRequest.timeoutMs = none ∧
    adminLoginRequest.timeoutMs = some 10000 :=
  ⟨rfl, rfl⟩

/-- C3 amended: the bootstrap verification call applies no timeout; any
failure the fetch reports (non-2xx or network error) ends with the flag
false and the stored token cleared after exactly one verification call,
with no retry. -/
theorem bootstrap_failure_clears (t : List Char) (o : VerifyOutcome)
    (h : o ≠ VerifyOutcome.ok) :
    bootstrapStep (some t) o = ⟨false, none, 1⟩ ∧
    bootstrapVerifyRequest.timeoutMs = none := by
  cases o with
  | ok => exact absurd rfl h
  | httpError s => exact ⟨rfl, rfl⟩
  | netError => exact ⟨rfl, rfl⟩

/-- Witness for the amended C3. -/
theorem bootstrap_failure_clears_witness :
    bootstrapStep (some "tok".data) VerifyOutcome.netError = ⟨false, none, 1⟩ :=
  (bootstrap_failure_clears "tok".data VerifyOutcome.netError (by decide)).1

/-! ## Claim C4 — login succeeds immediately -/

/-- C4: a 2xx login response carrying a token persists that token, flips
the logged-in flag at once with zero further network calls, and the
protected route then renders the admin panel. -/
theorem login_immediate_auth (prev : Option (List Char)) (t : List Char)
    (bp lp : Bool) :
    adminLoginHandle prev (LoginOutcome.ok (some t)) = ⟨some t, true, 0, none⟩ ∧
    renderAdminRoute ⟨true, some t, bp, lp⟩ = AdminRoute.panel ∧
    step ⟨false, prev, bp, true⟩ (Ev.loginOk (some t)) = ⟨true, some t, bp, false⟩ :=
  ⟨rfl, rfl, rfl⟩

/-! ## Claim C7 — photo size gate -/

/-- C7: an oversized photo (strictly above 1,048,576 bytes) is rejected at
selection time with the size-limit toast, before any network call and
without entering the draft; a photo of at most 1,048,576 bytes passes the
size check and is stored. -/
theorem photo_size_gate (st : FormState) (f : FileBlob) :
    (f.size > photoSizeLimit →
      (handlePhotoChange st (some f)).2.networkCalls = 0 ∧
      (handlePhotoChange st (some f)).2.toasts = [oversizeMsg] ∧
      (handlePhotoChange st (some f)).1.draft.photo = st.draft.photo) ∧
    (f.size ≤ photoSizeLimit →
      (handlePhotoChange st (some f)).1.draft.photo = some f) ∧
    photoSizeLimit = 1048576 := by
  refine ⟨fun hbig => ?_, fun hok => ?_, rfl⟩
  · simp [handlePhotoChange, hbig]
  · simp [handlePhotoChange, Nat.not_lt.mpr hok]

/-- Witness for C7: a 2 MiB file is rejected with no network call; a file
of exactly the limit is accepted. -/
theorem photo_size_gate_witness :
    (handlePhotoChange st0 (some bigFile)).2.networkCalls = 0 ∧
    (handlePhotoChange st0 (some edgeFile)).1.draft.photo = some edgeFile :=
  ⟨((photo_size_gate st0 bigFile).1 (by decide)).1,
   (photo_size_gate st0 edgeFile).2.1 (by decide)⟩

/-! ## Claim C10 — rejected photo leaves the state untouched -/

/-- C10: selecting an oversized photo leaves the whole form state (draft
and preview) exactly as it was and starts no file read. -/
theorem photo_reject_frame (st : FormState) (f : FileBlob)
    (h : f.size > photoSizeLimit) :
    (handlePhotoChange st (some f)).1 = st ∧
    (handlePhotoChange st (some f)).2.fileReads = 0 := by
  simp [handlePhotoChange, h]

/-- Witness for C10. -/
theorem photo_reject_frame_witness :
    (handlePhotoChange st0 (some bigFile)).1 = st0 :=
  (photo_reject_frame st0 bigFile (by decide)).1

/-! ## Claim C9 — phone validator -/

/-- C9: the phone matcher accepts exactly the strings of ten ASCII digits,
and a draft whose phone fails it is rejected with no network call and no
request body built. -/
theorem phone_validator_exact :
    (∀ cs : List Char, phoneTest cs = true ↔
      (cs.length = 10 ∧ ∀ c ∈ cs, isDigitChar c = true)) ∧
    (∀ (d : Draft) (f : FetchResult), phoneTest d.phone = false →
      (handleSubmit d f).networkCalls = 0 ∧ (handleSubmit d f).sentBody = none) := by
  constructor
  · intro cs
    rw [phoneTest, beq_iff_eq]
    exact matchDigits_spec 10 cs
  · intro d f hph
    by_cases hem : emailTest d.email = false
    · simp [handleSubmit, hem]
    · simp only [Bool.not_eq_false] at hem
      simp [handleSubmit, hem, hph]

/-- Witness for C9: a valid number is accepted; a five-digit draft is
rejected without touching the network. -/
theorem phone_validator_exact_witness :
    phoneTest "1234567890".data = true ∧
    (handleSubmit draftBadPhone FetchResult.ok).networkCalls = 0 :=
  ⟨(phone_validator_exact.1 "1234567890".data).2 (by decide),
   (phone_validator_exact.2 draftBadPhone FetchResult.ok (by decide)).1⟩

/-! ## Claim C1 — server-error mapping -/

/-- A 400 body mentioning both duplicated fields. -/
def bothMsg : List Char := "email and phone already registered".data

/-- C1 counterexample: a 400 message mentioning both "email" and "phone"
is mapped to the duplicate-email conflict text, not to a generic failure
carrying the server's message verbatim as the claim states (the `else if`
chain tests "email" first). -/
theorem error_mapping_counterexample :
    containsSub bothMsg "email".data = true ∧
    containsSub bothMsg "phone".data = true ∧
    userFacing 400 bothMsg = dupEmailMsg ∧
    dupEmailMsg ≠ bothMsg := by
  refine ⟨by decide, by decide, by decide, by decide⟩

/-- What the amended claim predicts the user sees for a non-2xx response:
on status 400 a message containing "email" gives the duplicate-email
conflict (even when it also mentions "phone"), else one containing "phone"
gives the duplicate-phone conflict; in every other case the server message
is shown verbatim only when it mentions "email" or "phone" (and is
nonempty), and a fixed generic failure text is shown otherwise. -/
def userFacingSpec (status : Nat) (msg : List Char) : List Char :=
  if status = 400 ∧ containsSub msg "email".data = true then dupEmailMsg
  else if status = 400 ∧ containsSub msg "phone".data = true then dupPhoneMsg
  else if msg ≠ [] ∧ (containsSub msg "email".data = true ∨
      containsSub msg "phone".data = true) then msg
  else genericToastMsg

/-- C1 amended: the end-to-end user-facing text of the submit error path
agrees with `userFacingSpec` on every status and message. -/
theorem error_mapping_amended (status : Nat) (msg : List Char) :
    userFacing status msg = userFacingSpec status msg := by
  unfold userFacing userFacingSpec thrownMessage toastShown
  by_cases h4 : status = 400
  · by_cases he : containsSub msg "email".data = true
    · simp [h4, he]
      decide
    · by_cases hp : containsSub msg "phone".data = true
      · simp [h4, he, hp]
        decide
      · by_cases hz : msg = []
        · simp [h4, he, hp, hz]
          decide
        · simp [h4, he, hp, hz]
  · by_cases hz : msg = []
    · simp [h4, hz]
      decide
    · by_cases he : containsSub msg "email".data = true
      · simp [h4, hz, he]
      · by_cases hp : containsSub msg "phone".data = true
        · simp [h4, hz, he, hp]
        · simp [h4, hz, he, hp]

/-! ## Claim C6 — multipart body contents -/

/-- The eight text-field names the claim lists, in the order the form
iterates them. -/
def claimedTextNames : List (List Char) :=
  ["name".data, "email".data, "phone".data, "dob".data, "plan".data,
   "startDate".data, "endDate".data, "paymentMethod".data]

/-- The text-field names the code actually produces when the photo is
absent: `String(null)` turns the photo into a ninth text part. -/
def withNullPhotoNames : List (List Char) :=
  ["name".data, "email".data, "phone".data, "dob".data, "photo".data,
   "plan".data, "startDate".data, "endDate".data, "paymentMethod".data]

/-- C6 counterexample: with no photo selected, the body's text fields are
not the claimed eight — a text part `photo` with value `"null"` is sent as
well. -/
theorem multipart_counterexample :
    draftNoPhoto.photo = none ∧
    textPartNames (buildMultipart draftNoPhoto) ≠ claimedTextNames ∧
    textPartValue (buildMultipart draftNoPhoto) "photo".data =
      some "null".data := by
  refine ⟨rfl, by decide, by decide⟩

/-- C6 amended: when a photo is present the body is exactly the eight text
fields plus one binary part named `photo`; when it is absent there is no
binary part and the text fields are the eight plus a text part
`photo = "null"`. -/
theorem multipart_fields (d : Draft) :
    (∀ f, d.photo = some f →
      textPartNames (buildMultipart d) = claimedTextNames ∧
      binaryParts (buildMultipart d) = [("photo".data, f)]) ∧
    (d.photo = none →
      textPartNames (buildMultipart d) = withNullPhotoNames ∧
      binaryParts (buildMultipart d) = [] ∧
      textPartValue (buildMultipart d) "photo".data = some "null".data) := by
  constructor
  · intro f hf
    simp [buildMultipart, textPartNames, binaryParts, hf, claimedTextNames]
  · intro hf
    refine ⟨?_, ?_, ?_⟩
    · simp [buildMultipart, textPartNames, hf, withNullPhotoNames]
    · simp [buildMultipart, binaryParts, hf]
    · simp [buildMultipart, textPartValue, hf]

/-- Witness for the amended C6, at a draft with a photo and one without. -/
theorem multipart_fields_witness :
    textPartNames (buildMultipart sampleDraft) = claimedTextNames ∧
    textPartNames (buildMultipart draftNoPhoto) = withNullPhotoNames :=
  ⟨((multipart_fields sampleDraft).1 file1 rfl).1,
   ((multipart_fields draftNoPhoto).2 rfl).1⟩

/-! ## Claim C5 — protected UI gated by successful credential checks -/

/-- The racing trace: a token is stored so the bootstrap verify is in
flight at mount; the user submits the login form (rendered, flag false);
the bootstrap verify resolves 2xx and sets the flag; then the login fetch
resolves non-2xx — its callback only touches local component state. -/
def raceTrace : List Ev :=
  [Ev.loginStart, Ev.bootstrapOk, Ev.loginHttpError]

/-- C5 counterexample: after `raceTrace` the admin panel renders while the
most recent completed credential call (the failed login) did not succeed,
so the claimed invariant is false of the code. -/
theorem admin_gate_counterexample :
    validFrom (initState (some "tok".data)) raceTrace = true ∧
    renderAdminRoute (runFrom (initState (some "tok".data)) raceTrace) =
      AdminRoute.panel ∧
    lastCredOutcome raceTrace = some false := by
  refine ⟨by decide, by decide, by decide⟩

theorem loggedIn_lastStateCred (s : AppState) (evs : List Ev)
    (hs : s.isAdminLoggedIn = false) (hv : validFrom s evs = true)
    (hl : (runFrom s evs).isAdminLoggedIn = true) :
    lastStateCredOutcome evs = some true := by
  induction evs using List.reverseRecOn with
  | nil =>
    simp only [runFrom, List.foldl_nil] at hl
    exact absurd hl (by simp [hs])
  | append_singleton l e ih =>
    rw [validFrom_append] at hv
    rw [runFrom_append] at hl
    simp only [Bool.and_eq_true, validFrom, Bool.and_true] at hv
    obtain ⟨hvl, -⟩ := hv
    simp only [runFrom, List.foldl_cons, List.foldl_nil] at hl
    cases e with
    | loginStart =>
      simp only [step] at hl
      have hrec := ih hvl hl
      simpa [lastStateCredOutcome, List.filterMap_append, stateCredOutcome]
        using hrec
    | bootstrapOk =>
      simp [lastStateCredOutcome, List.filterMap_append, stateCredOutcome]
    | bootstrapHttpError st =>
      simp [step] at hl
    | bootstrapNetError =>
      simp [step] at hl
    | loginOk t =>
      simp [lastStateCredOutcome, List.filterMap_append, stateCredOutcome]
    | loginHttpError =>
      simp only [step] at hl
      have hrec := ih hvl hl
      simpa [lastStateCredOutcome, List.filterMap_append, stateCredOutcome]
        using hrec
    | loginNetError =>
      simp only [step] at hl
      have hrec := ih hvl hl
      simpa [lastStateCredOutcome, List.filterMap_append, stateCredOutcome]
        using hrec
    | logout =>
      simp [step] at hl

/-- C5 amended: in every state reachable by a valid trace of events from
the logged-out initial state, the `/admin` route renders the admin panel
only when the logged-in flag is set, and the flag is set only when the
most recent credential/verification call that wrote the session state (a
bootstrap outcome or a successful login) succeeded.  The invariant does
not extend to the most recent completed call overall: a failed login
resolving after a concurrent successful bootstrap leaves the flag set
(`admin_gate_counterexample`). -/
theorem admin_gate_invariant (t0 : Option (List Char)) (evs : List Ev)
    (hv : validFrom (initState t0) evs = true)
    (hp : renderAdminRoute (runFrom (initState t0) evs) = AdminRoute.panel) :
    (runFrom (initState t0) evs).isAdminLoggedIn = true ∧
    lastStateCredOutcome evs = some true := by
  have hl : (runFrom (initState t0) evs).isAdminLoggedIn = true := by
    by_cases h : (runFrom (initState t0) evs).isAdminLoggedIn = true
    · exact h
    · simp only [Bool.not_eq_true] at h
      rw [renderAdminRoute, h] at hp
      exact absurd hp (by simp)
  exact ⟨hl, loggedIn_lastStateCred (initState t0) evs rfl hv hl⟩

/-- Witness for the amended C5: a submitted and successful login from the
empty-storage initial state. -/
theorem admin_gate_invariant_witness :
    validFrom (initState none) [Ev.loginStart, Ev.loginOk (some "t".data)] = true ∧
    lastStateCredOutcome [Ev.loginStart, Ev.loginOk (some "t".data)] = some true :=
  ⟨by decide,
   (admin_gate_invariant none [Ev.loginStart, Ev.loginOk (some "t".data)]
     (by decide) (by decide)).2⟩

/-! ## Claim C8 — email validator -/

theorem dropWhile_head_false (p : Char → Bool) :
    ∀ (cs : List Char) (x : Char) (xs : List Char),
      cs.dropWhile p = x :: xs → p x = false := by
  intro cs
  induction cs with
  | nil =>
    intro x xs h
    exact absurd h (by simp)
  | cons c rest ih =>
    intro x xs h
    rw [List.dropWhile_cons] at h
    by_cases hc : p c = true
    · rw [if_pos hc] at h
      exact ih x xs h
    · rw [if_neg hc] at h
      obtain ⟨rfl, -⟩ := List.cons.injEq .. ▸ h
      simp only [Bool.not_eq_true] at hc
      exact hc

theorem takeWhile_middle (p : Char → Bool) :
    ∀ (a : List Char) (x : Char) (t : List Char),
      (∀ y ∈ a, p y = true) → p x = false →
      (a ++ x :: t).takeWhile p = a ∧ (a ++ x :: t).dropWhile p = x :: t := by
  intro a
  induction a with
  | nil =>
    intro x t _ hx
    simp [List.takeWhile_cons, List.dropWhile_cons, hx]
  | cons y a ih =>
    intro x t ha hx
    have hy : p y = true := ha y (List.mem_cons_self _ _)
    have hrec := ih x t (fun z hz => ha z (List.mem_cons_of_mem _ hz)) hx
    simp [List.takeWhile_cons, List.dropWhile_cons, hy, hrec.1, hrec.2]

theorem getD_append_length (b : List Char) (x d : Char) (c : List Char) :
    (b ++ x :: c).getD b.length d = x := by
  induction b with
  | nil => rfl
  | cons y b ih => simpa using ih

theorem hasInternalDot_exists {cs : List Char} (h : hasInternalDot cs = true) :
    ∃ j, 1 ≤ j ∧ j + 2 ≤ cs.length ∧ cs.getD j ' ' = '.' := by
  simp only [hasInternalDot, List.any_eq_true, List.mem_range] at h
  obtain ⟨j, hj, hcond⟩ := h
  simp only [Bool.and_eq_true, decide_eq_true_eq, beq_iff_eq] at hcond
  exact ⟨j, hcond.1.1, hcond.1.2, hcond.2⟩

theorem hasInternalDot_intro {cs : List Char} (j : Nat) (h1 : 1 ≤ j)
    (h2 : j + 2 ≤ cs.length) (h3 : cs.getD j ' ' = '.') :
    hasInternalDot cs = true := by
  simp only [hasInternalDot, List.any_eq_true, List.mem_range]
  refine ⟨j, by omega, ?_⟩
  simp only [Bool.and_eq_true, decide_eq_true_eq, beq_iff_eq]
  exact ⟨⟨h1, h2⟩, h3⟩

theorem isEmpty_false_ne (l : List Char) (h : l.isEmpty = false) : l ≠ [] := by
  cases l with
  | nil => simp at h
  | cons a t => simp

theorem ne_isEmpty_false (l : List Char) (h : l ≠ []) : l.isEmpty = false := by
  cases l with
  | nil => exact absurd rfl h
  | cons a t => rfl

theorem emailTest_sound {cs : List Char} (h : emailTest cs = true) :
    EmailShape cs := by
  simp only [emailTest] at h
  cases hrest : cs.dropWhile (fun c => c != '@') with
  | nil =>
    rw [hrest] at h
    exact absurd h (by simp)
  | cons r rest2 =>
    rw [hrest] at h
    simp only [Bool.and_eq_true, List.all_eq_true, Bool.not_eq_true'] at h
    obtain ⟨⟨⟨⟨hane, hagood⟩, hrne⟩, hrgood⟩, hdot⟩ := h
    have hr : (r != '@') = false := dropWhile_head_false _ cs r rest2 hrest
    have hr' : r = '@' := by simpa using hr
    subst hr'
    have hcs : cs = cs.takeWhile (fun c => c != '@') ++ '@' :: rest2 := by
      conv_lhs =>
        rw [← List.takeWhile_append_dropWhile (p := fun c => c != '@') (l := cs)]
      rw [hrest]
    obtain ⟨j, hj1, hj2, hjdot⟩ := hasInternalDot_exists hdot
    have hjlt : j < rest2.length := by omega
    have hx : rest2[j] = '.' :=
      (List.getD_eq_getElem rest2 ' ' hjlt).symm.trans hjdot
    have hsplit : rest2 = rest2.take j ++ '.' :: rest2.drop (j + 1) := by
      have hdec := List.take_append_drop j rest2
      rw [List.drop_eq_getElem_cons hjlt, hx] at hdec
      exact hdec.symm
    refine ⟨cs.takeWhile (fun c => c != '@'), rest2.take j, rest2.drop (j + 1),
      isEmpty_false_ne _ hane, ?_, ?_, hagood, ?_, ?_, ?_⟩
    · have hlen : (rest2.take j).length = j := by
        rw [List.length_take]
        omega
      intro hnil
      rw [hnil] at hlen
      simp at hlen
      omega
    · have hlen : (rest2.drop (j + 1)).length = rest2.length - (j + 1) :=
        List.length_drop _ _
      intro hnil
      rw [hnil] at hlen
      simp at hlen
      omega
    · exact fun x hx => hrgood x (List.take_subset j rest2 hx)
    · exact fun x hx => hrgood x (List.drop_subset (j + 1) rest2 hx)
    · conv_lhs => rw [hcs]
      rw [← hsplit]

theorem emailTest_complete {cs : List Char} (h : EmailShape cs) :
    emailTest cs = true := by
  obtain ⟨a, b, c, ha, hb, hc, hag, hbg, hcg, rfl⟩ := h
  have hagood : ∀ y ∈ a, (y != '@') = true := by
    intro y hy
    have hg := hag y hy
    simp only [goodChar, Bool.and_eq_true] at hg
    exact hg.2
  have hAt : (('@' : Char) != '@') = false := by decide
  obtain ⟨htw, hdw⟩ :=
    takeWhile_middle (fun c => c != '@') a '@' (b ++ '.' :: c) hagood hAt
  have hdotgood : goodChar '.' = true := by decide
  simp only [emailTest, htw, hdw]
  have hlenb : 1 ≤ b.length := List.length_pos.mpr hb
  have hlenc : 1 ≤ c.length := List.length_pos.mpr hc
  have hdot : hasInternalDot (b ++ '.' :: c) = true := by
    refine hasInternalDot_intro b.length hlenb ?_ ?_
    · simp only [List.length_append, List.length_cons]
      omega
    · exact getD_append_length b '.' ' ' c
  simp only [Bool.and_eq_true, List.all_eq_true, Bool.not_eq_true']
  refine ⟨⟨⟨⟨ne_isEmpty_false a ha, hag⟩, ne_isEmpty_false _ (by simp)⟩, ?_⟩, hdot⟩
  intro x hx
  rcases List.mem_append.mp hx with hxb | hxc
  · exact hbg x hxb
  · rcases List.mem_cons.mp hxc with rfl | hxc2
    · exact hdotgood
    · exact hcg x hxc2

/-- C8: the email matcher accepts exactly the strings of the shape the spec
describes (nonempty run of non-whitespace non-`@` characters, `@`, another
such run, `.`, another such run); consequently any string without `@`, or
without a `.` after the `@`, is rejected; `a@b.co` is accepted; and a draft
failing the email check is rejected with no network call and no body
built. -/
theorem email_validator_exact :
    (∀ cs : List Char, emailTest cs = true ↔ EmailShape cs) ∧
    (∀ cs : List Char, '@' ∉ cs → emailTest cs = false) ∧
    (∀ cs : List Char, '.' ∉ cs.dropWhile (fun c => c != '@') →
      emailTest cs = false) ∧
    emailTest "a@b.co".data = true ∧
    (∀ (d : Draft) (f : FetchResult), emailTest d.email = false →
      (handleSubmit d f).networkCalls = 0 ∧ (handleSubmit d f).sentBody = none) := by
  have hiff : ∀ cs : List Char, emailTest cs = true ↔ EmailShape cs :=
    fun cs => ⟨emailTest_sound, emailTest_complete⟩
  refine ⟨hiff, ?_, ?_, by decide, ?_⟩
  · intro cs hnot
    by_contra hne
    simp only [Bool.not_eq_false] at hne
    obtain ⟨a, b, c, -, -, -, -, -, -, rfl⟩ := (hiff cs).mp hne
    exact hnot (by simp)
  · intro cs hnot
    by_contra hne
    simp only [Bool.not_eq_false] at hne
    obtain ⟨a, b, c, -, -, -, hag, -, -, rfl⟩ := (hiff cs).mp hne
    have hagood : ∀ y ∈ a, (y != '@') = true := by
      intro y hy
      have hg := hag y hy
      simp only [goodChar, Bool.and_eq_true] at hg
      exact hg.2
    have hAt : (('@' : Char) != '@') = false := by decide
    obtain ⟨-, hdw⟩ :=
      takeWhile_middle (fun c => c != '@') a '@' (b ++ '.' :: c) hagood hAt
    rw [hdw] at hnot
    exact hnot (by simp)
  · intro d f hem
    simp [handleSubmit, hem]

/-- Witness for C8: `a@b.co` has the spec's shape, `nobody` is rejected,
and a draft with that email never reaches the network. -/
theorem email_validator_exact_witness :
    EmailShape "a@b.co".data ∧
    emailTest "nobody".data = false ∧
    (handleSubmit draftBadEmail FetchResult.ok).networkCalls = 0 :=
  ⟨(email_validator_exact.1 "a@b.co".data).mp (by decide),
   email_validator_exact.2.1 "nobody".data (by decide),
   (email_validator_exact.2.2.2.2 draftBadEmail FetchResult.ok (by decide)).1⟩

end Gym
